import Mathlib

/-!
Verification of the partition-and-merge text-encoding pipeline
(`poly_nlp/tasks/preprocessing/encode_text/encode_text_task.py`).

The Python dictionaries are modelled as association lists with Python's
insertion-order semantics: `dlookup` is `d[k]` (first match, keys are unique
in every dict the code builds), `dinsert` is `d[k] = v` (replace in place,
else append), and `dmerge x y` is the dict-unpacking merge where entries of
`y` override entries of `x`.  NumPy memmap arrays are modelled as lists of
rows of integers; storing into them applies numpy's unsafe fixed-width
cast (`castDtype`: reduce modulo `2 ^ bits`, two's complement when
signed), and creating a memmap with zero total elements raises
`ValueError` in NumPy (an empty file cannot be memory-mapped), which the
embedding records as an error result.  The Ray executor and the spaCy
tokenizer are external collaborators: `run` is parameterized by the
partition the dispatcher chose and by the per-record tokenizer function.
-/

section Dicts

variable {κ : Type} {β : Type} [DecidableEq κ]

/-- Python `d[k]`: first (unique) binding of key `k` in the dict. -/
def dlookup (k : κ) : List (κ × β) → Option β
  | [] => none
  | (k1, v) :: rest => if k = k1 then some v else dlookup k rest

/-- Python `d[k] = v`: replace the binding in place if the key exists,
otherwise append it. -/
def dinsert (k : κ) (v : β) : List (κ × β) → List (κ × β)
  | [] => [(k, v)]
  | (k1, v1) :: rest =>
      if k = k1 then (k1, v) :: rest else (k1, v1) :: dinsert k v rest

/-- Python `{**x, **y}`: entries of `y` override entries of `x`. -/
def dmerge (x y : List (κ × β)) : List (κ × β) :=
  y.foldl (fun acc p => dinsert p.1 p.2 acc) x

end Dicts

/-- Python `str.lower()`: lowercase every character
(tokens are ASCII words here, matching `Char.toLower`). -/
def lower (s : String) : String :=
  ⟨s.data.map Char.toLower⟩

/-- Bit width and signedness of numpy's fixed-width integer dtypes, keyed
by the dtype string the pipeline passes to `np.memmap`.  Per the spec's
interface contract, `dtype` ranges over fixed-width signed or unsigned
integer types; other strings are not a modelled configuration. -/
def dtypeSpec (dtype : String) : Option (Nat × Bool) :=
  if dtype = "int8" then some (8, true)
  else if dtype = "int16" then some (16, true)
  else if dtype = "int32" then some (32, true)
  else if dtype = "int64" then some (64, true)
  else if dtype = "uint8" then some (8, false)
  else if dtype = "uint16" then some (16, false)
  else if dtype = "uint32" then some (32, false)
  else if dtype = "uint64" then some (64, false)
  else none

/-- Wrap-around of a nonnegative value into a `bits`-wide integer:
reduce modulo `2 ^ bits` and reinterpret as two's complement when the
type is signed (so 300 becomes 44 in int8, 256 becomes 0, 200 becomes
-56). -/
def castWidth (bits : Nat) (signed : Bool) (v : Nat) : Int :=
  if signed = true ∧ 2 ^ (bits - 1) ≤ v % 2 ^ bits then
    ((v % 2 ^ bits : Nat) : Int) - 2 ^ bits
  else ((v % 2 ^ bits : Nat) : Int)

/-- The unsafe cast numpy applies when a row assignment stores an integer
into a fixed-width array of the given dtype.  Strings outside `dtypeSpec`
are left uncast. -/
def castDtype (dtype : String) (v : Nat) : Int :=
  match dtypeSpec dtype with
  | none => (v : Int)
  | some (bits, signed) => castWidth bits signed v

/-- `v` lies in the representable range of a `bits`-wide integer. -/
def inWidthRange (bits : Nat) (signed : Bool) (v : Nat) : Prop :=
  if signed = true then v < 2 ^ (bits - 1) else v < 2 ^ bits

/-- `v` lies in the dtype's representable range (so the store does not
wrap it). -/
def inDtypeRange (dtype : String) (v : Nat) : Prop :=
  match dtypeSpec dtype with
  | none => True
  | some (bits, signed) => inWidthRange bits signed v

/-- Python exceptions that the pipeline code can raise. -/
inductive PipelineError
  /-- `NotImplementedError("Pretrained encoding only implemented")`. -/
  | notImplemented
  /-- `KeyError` from `pandas.Index.get_loc` on a missing label. -/
  | keyError (k : String)
  /-- `ValueError` from `np.memmap` on a zero-size array
  (an empty file cannot be memory-mapped). -/
  | valueError
  /-- `IndexError` from `glove_vectors[0]` on an empty table. -/
  | indexError
deriving DecidableEq

/-- Error kinds of `TransformedDict.__getitem__`: the Python `KeyError` from
the merged map (unknown record), the `KeyError` from `real_store` (missing
shard), and the `IndexError` from indexing a shard array out of range. -/
inductive KeyErrorKind
  | UnknownRecord
  | MissingShard
  | RowOutOfRange
deriving DecidableEq

/-- The value returned by `EncodeTextTask.map_vocab` for one shard `pos`:
the two memmap arrays (holding dtype-cast values) plus the local
`query_mapping` (`record id ↦ (pos, row index)`). -/
structure ShardResult where
  input_ids : List (List Int)
  attention_masks : List (List Int)
  query_mapping : List (String × Nat × Nat)
deriving DecidableEq

/-- Left-to-right effectful map over a list: the Python semantics of
building a list by evaluating one expression per element, where the first
raised exception propagates. -/
def mapE {α β : Type} (f : α → Except PipelineError β) :
    List α → Except PipelineError (List β)
  | [] => .ok []
  | a :: rest =>
    match f a with
    | .error e => .error e
    | .ok b =>
      match mapE f rest with
      | .error e => .error e
      | .ok bs => .ok (b :: bs)

/-- Python `enumerate`, pairing each element with its 0-based position. -/
def pyEnum {α : Type} (n : Nat) : List α → List (Nat × α)
  | [] => []
  | a :: rest => (n, a) :: pyEnum (n + 1) rest

/-- One row of `input_ids`:
`[vec(query[index].lower()) if index < len(query) else 0
  for index in range(0, maxlen)]`.
A `KeyError` raised by `vec` propagates out of the list comprehension. -/
def rowIds (vec : String → Except PipelineError Nat) (query : List String)
    (maxlen : Nat) : Except PipelineError (List Nat) :=
  mapE (fun i => if i < query.length then vec (lower (query.getD i "")) else .ok 0)
    (List.range maxlen)

/-- One row of `attention_masks`:
`[1 if index < len(query) else 0 for index in range(0, maxlen)]`. -/
def rowMask (query : List String) (maxlen : Nat) : List Nat :=
  (List.range maxlen).map fun i => if i < query.length then 1 else 0

/-- `EncodeTextTask.map_vocab(pos, input, vec, maxlen, dtype, ...)`.
The two `np.memmap(..., mode="w+", shape=(len(input), maxlen))` calls raise
`ValueError` when the total element count is zero; otherwise each record is
assigned the row index equal to its position in the shard's iteration order
and its two rows are written, the numpy store casting every element to the
configured dtype (`castDtype`) with no range check.  The truncation branch
only prints a warning and is not an error. -/
def map_vocab (pos : Nat) (input : List (String × List String))
    (vec : String → Except PipelineError Nat) (maxlen : Nat)
    (dtype : String) : Except PipelineError ShardResult :=
  if input.length * maxlen = 0 then .error .valueError
  else
    match mapE (fun p => rowIds vec p.2 maxlen) input with
    | .error e => .error e
    | .ok ids =>
      .ok { input_ids := ids.map fun rowVals => rowVals.map (castDtype dtype)
            attention_masks :=
              input.map fun p => (rowMask p.2 maxlen).map (castDtype dtype)
            query_mapping := (pyEnum 0 input).map fun q => (q.2.1, (pos, q.1)) }

/-- The per-shard value kept in `real_store` after `run` strips the
`query_mapping` key: just the two arrays. -/
structure ShardArrays where
  input_ids : List (List Int)
  attention_masks : List (List Int)
deriving DecidableEq

/-- The `TransformedDict` built at the end of `run`. -/
structure TransformedDict where
  /-- the merged `record id ↦ (shard pos, row index)` map -/
  combined_query : List (String × Nat × Nat)
  /-- `shard pos ↦ the shard's two arrays` -/
  real_store : List (Nat × ShardArrays)
  /-- `self.store`, filled by the free `update` from `combined_query` -/
  store : List (String × Nat × Nat)
deriving DecidableEq

/-- `TransformedDict.__init__(combined_query, args)`. -/
def mkTransformedDict (combined : List (String × Nat × Nat))
    (args : List (Nat × ShardArrays)) : TransformedDict :=
  { combined_query := combined, real_store := args, store := combined }

/-- The per-record value `__getitem__` assembles:
`{k: v[pos] for k, v in self.real_store[key].items()}`. -/
structure EncodedFields where
  input_ids : List Int
  attention_masks : List Int
deriving DecidableEq

/-- `TransformedDict.__getitem__`: `key, pos = self.combined_query[key]`,
then one row of each array of `self.real_store[key]`. -/
def TransformedDict.get (d : TransformedDict) (id : String) :
    Except KeyErrorKind EncodedFields :=
  match dlookup id d.combined_query with
  | none => .error .UnknownRecord
  | some (s, row) =>
    match dlookup s d.real_store with
    | none => .error .MissingShard
    | some arrs =>
      match arrs.input_ids.get? row, arrs.attention_masks.get? row with
      | some a, some m => .ok { input_ids := a, attention_masks := m }
      | _, _ => .error .RowOutOfRange

/-- `reduce(lambda x, y: {**x, **y["query_mapping"]},
vocab_mapped_text.values(), {})`. -/
def mergeQuery (shards : List (Nat × ShardResult)) :
    List (String × Nat × Nat) :=
  shards.foldl (fun acc p => dmerge acc p.2.query_mapping) []

/-- The `TransformedDict(combined_query_mapping, [(key, {k: v ...}), ...])`
construction in `run`: merged map plus the per-shard arrays with the
`query_mapping` key filtered out. -/
def buildGlobalIndex (shards : List (Nat × ShardResult)) : TransformedDict :=
  mkTransformedDict (mergeQuery shards)
    (shards.map fun p =>
      (p.1, { input_ids := p.2.input_ids
              attention_masks := p.2.attention_masks }))

/-- `pandas.Index.get_loc`: position of the (unique) label in the index. -/
def get_loc (w : String) : List String → Option Nat
  | [] => none
  | k :: rest => if w = k then some 0 else (get_loc w rest).map (· + 1)

/-- The `vec` lambda of `run`:
`lambda w: words.index.get_loc(w) + 1 if w in words.index
           else words.index.get_loc("unk") + 1`.
`get_loc("unk")` raises `KeyError` if the sentinel is absent — and only
when an unknown token is actually resolved. -/
def vecOf (words : List (String × List Rat)) (w : String) :
    Except PipelineError Nat :=
  match get_loc w (words.map Prod.fst) with
  | some i => .ok (i + 1)
  | none =>
    match get_loc "unk" (words.map Prod.fst) with
    | some j => .ok (j + 1)
    | none => .error (.keyError "unk")

/-- `np.vstack((np.zeros_like(glove_vectors[0]), glove_vectors))`:
prepend a zero row of the shape of row 0; `glove_vectors[0]` raises
`IndexError` on an empty table. -/
def assembleEmbedding (rows : List (List Rat)) : Option (List (List Rat)) :=
  match rows with
  | [] => none
  | r0 :: rest => some (List.replicate r0.length (0 : Rat) :: r0 :: rest)

/-- The Ray dispatch of `map_vocab` over the tokenized partitions:
partition index `pos` is both the worker argument and the key of the
fanned-in result dict. -/
def mapVocabAll (tokenized : List (List (String × List String)))
    (vec : String → Except PipelineError Nat) (maxlen : Nat)
    (dtype : String) : Except PipelineError (List (Nat × ShardResult)) :=
  mapE (fun q => (map_vocab q.1 q.2 vec maxlen dtype).map fun sr => (q.1, sr))
    (pyEnum 0 tokenized)

/-- The stages of `EncodeTextTask.run` in source order, used to record
which work has been dispatched before a failure surfaces. -/
inductive Stage
  | tokenizeDispatch
  | mapVocabDispatch
  | mergeStep
  | embeddingStep
deriving DecidableEq

/-- The value `run` returns when a pretrained file was supplied. -/
structure RunResult where
  inputs : TransformedDict
  embedding : List (List Rat)
deriving DecidableEq

/-- `EncodeTextTask.run`.  `parts` is the partition of `text_input` chosen
by the external Ray dispatcher, `tok` the external spaCy tokenizer applied
per record text, `pretrained` the parsed pretrained table (`None` models no
`pretrained_file`).  The returned list records which stages were dispatched
before the result (tokenization always runs first; the
`NotImplementedError` for a missing pretrained file is raised only after
it). -/
def run (parts : List (List (String × String))) (tok : String → List String)
    (pretrained : Option (List (String × List Rat))) (maxlen : Nat)
    (dtype : String) : List Stage × Except PipelineError RunResult :=
  match pretrained with
  | none => ([.tokenizeDispatch], .error .notImplemented)
  | some words =>
    match mapVocabAll (parts.map fun part => part.map fun p => (p.1, tok p.2))
        (vecOf words) maxlen dtype with
    | .error e => ([.tokenizeDispatch, .mapVocabDispatch], .error e)
    | .ok shards =>
      match assembleEmbedding (words.map Prod.snd) with
      | none =>
        ([.tokenizeDispatch, .mapVocabDispatch, .mergeStep], .error .indexError)
      | some emb =>
        ([.tokenizeDispatch, .mapVocabDispatch, .mergeStep, .embeddingStep],
         .ok { inputs := buildGlobalIndex shards, embedding := emb })

/-! ### Dictionary lemmas -/

section DictLemmas

variable {κ β γ : Type} [DecidableEq κ]

theorem dlookup_eq_none_of_not_mem {k : κ} {l : List (κ × β)}
    (h : k ∉ l.map Prod.fst) : dlookup k l = none := by
  induction l with
  | nil => rfl
  | cons p rest ih =>
    obtain ⟨k1, v1⟩ := p
    simp only [List.map_cons, List.mem_cons] at h
    push_neg at h
    simp only [dlookup, if_neg h.1]
    exact ih h.2

theorem dlookup_dinsert (k k1 : κ) (v : β) (l : List (κ × β)) :
    dlookup k (dinsert k1 v l) = if k = k1 then some v else dlookup k l := by
  induction l with
  | nil => simp [dinsert, dlookup]
  | cons p rest ih =>
    obtain ⟨k2, v2⟩ := p
    simp only [dinsert]
    by_cases h1 : k1 = k2
    · subst h1
      by_cases h2 : k = k1 <;> simp [dlookup, h2]
    · rw [if_neg h1]
      by_cases h2 : k = k2
      · have hk : ¬k = k1 := fun hk => h1 (hk.symm.trans h2)
        have h1s : ¬k2 = k1 := fun hx => h1 hx.symm
        simp [dlookup, h2, hk, h1s]
      · simp [dlookup, h2, ih]

theorem dmerge_nil (x : List (κ × β)) : dmerge x [] = x := rfl

theorem dmerge_cons (x : List (κ × β)) (p : κ × β) (y : List (κ × β)) :
    dmerge x (p :: y) = dmerge (dinsert p.1 p.2 x) y := rfl

theorem dlookup_dmerge_of_none {k : κ} {y : List (κ × β)} (x : List (κ × β))
    (h : dlookup k y = none) : dlookup k (dmerge x y) = dlookup k x := by
  induction y generalizing x with
  | nil => rfl
  | cons p rest ih =>
    obtain ⟨k1, v1⟩ := p
    rw [dmerge_cons]
    simp only [dlookup] at h
    by_cases hk : k = k1
    · rw [if_pos hk] at h; cases h
    · rw [if_neg hk] at h
      rw [ih _ h, dlookup_dinsert, if_neg hk]

theorem dlookup_dmerge_of_some {k : κ} {v : β} {y : List (κ × β)}
    (x : List (κ × β)) (hnd : (y.map Prod.fst).Nodup)
    (h : dlookup k y = some v) : dlookup k (dmerge x y) = some v := by
  induction y generalizing x with
  | nil => cases h
  | cons p rest ih =>
    obtain ⟨k1, v1⟩ := p
    rw [dmerge_cons]
    simp only [List.map_cons, List.nodup_cons] at hnd
    simp only [dlookup] at h
    by_cases hk : k = k1
    · rw [if_pos hk] at h
      injection h with h
      subst h
      have hnone : dlookup k rest = none :=
        dlookup_eq_none_of_not_mem (hk ▸ hnd.1)
      rw [dlookup_dmerge_of_none _ hnone, dlookup_dinsert, if_pos hk]
    · rw [if_neg hk] at h
      exact ih _ hnd.2 h

theorem dlookup_map_entry {α : Type} [DecidableEq α] (f : β → γ)
    (l : List (α × β)) (s : α) (b : β)
    (hnd : (l.map Prod.fst).Nodup) (hmem : (s, b) ∈ l) :
    dlookup s (l.map fun p => (p.1, f p.2)) = some (f b) := by
  induction l with
  | nil => cases hmem
  | cons q rest ih =>
    simp only [List.map_cons, List.nodup_cons] at hnd
    rcases List.mem_cons.mp hmem with heq | hmemr
    · rw [← heq]
      simp [dlookup]
    · have hs : s ≠ q.1 := by
        intro h1
        apply hnd.1
        rw [← h1]
        exact List.mem_map_of_mem Prod.fst hmemr
      obtain ⟨k1, v1⟩ := q
      simp only [List.map_cons]
      simp only [dlookup, if_neg hs]
      exact ih hnd.2 hmemr

end DictLemmas

theorem mergeQuery_foldl_absent (shards : List (Nat × ShardResult))
    (acc : List (String × Nat × Nat)) (r : String)
    (h : ∀ p ∈ shards, dlookup r p.2.query_mapping = none) :
    dlookup r (shards.foldl (fun a p => dmerge a p.2.query_mapping) acc) =
      dlookup r acc := by
  induction shards generalizing acc with
  | nil => rfl
  | cons q rest ih =>
    rw [List.foldl_cons, ih _ (fun p hp => h p (List.mem_cons_of_mem _ hp)),
      dlookup_dmerge_of_none _ (h q (List.mem_cons_self _ _))]

theorem mergeQuery_foldl_unique (shards : List (Nat × ShardResult))
    (acc : List (String × Nat × Nat)) (r : String) (s : Nat)
    (sr : ShardResult) (v : Nat × Nat)
    (hpos : (shards.map Prod.fst).Nodup)
    (hmem : (s, sr) ∈ shards)
    (hnd : (sr.query_mapping.map Prod.fst).Nodup)
    (hr : dlookup r sr.query_mapping = some v)
    (hothers : ∀ p ∈ shards, p.1 ≠ s → dlookup r p.2.query_mapping = none) :
    dlookup r (shards.foldl (fun a p => dmerge a p.2.query_mapping) acc) =
      some v := by
  induction shards generalizing acc with
  | nil => cases hmem
  | cons q rest ih =>
    simp only [List.map_cons, List.nodup_cons] at hpos
    rw [List.foldl_cons]
    rcases List.mem_cons.mp hmem with heq | hmemr
    · have habs : ∀ p ∈ rest, dlookup r p.2.query_mapping = none := by
        intro p hp
        apply hothers p (List.mem_cons_of_mem _ hp)
        intro hps
        apply hpos.1
        have hq1 : q.1 = s := by rw [← heq]
        rw [hq1, ← hps]
        exact List.mem_map_of_mem Prod.fst hp
      rw [mergeQuery_foldl_absent rest _ r habs, ← heq]
      exact dlookup_dmerge_of_some _ hnd hr
    · exact ih _ hpos.2 hmemr
        (fun p hp hne => hothers p (List.mem_cons_of_mem _ hp) hne)

/-! ### `mapE`, `pyEnum`, `get_loc` and `vecOf` lemmas -/

theorem mapE_ok_of_forall {α β : Type} (f : α → Except PipelineError β)
    (l : List α) (h : ∀ a ∈ l, ∃ b, f a = .ok b) :
    ∃ bs, mapE f l = .ok bs := by
  induction l with
  | nil => exact ⟨[], rfl⟩
  | cons a rest ih =>
    obtain ⟨b, hb⟩ := h a (List.mem_cons_self _ _)
    obtain ⟨bs, hbs⟩ := ih fun x hx => h x (List.mem_cons_of_mem _ hx)
    exact ⟨b :: bs, by simp [mapE, hb, hbs]⟩

theorem mapE_ok_get? {α β : Type} (f : α → Except PipelineError β)
    (l : List α) (bs : List β) (h : mapE f l = .ok bs) (k : Nat) (a : α)
    (ha : l.get? k = some a) : ∃ b, f a = .ok b ∧ bs.get? k = some b := by
  induction l generalizing bs k with
  | nil => cases ha
  | cons a0 rest ih =>
    simp only [mapE] at h
    cases hf : f a0 with
    | error e => rw [hf] at h; cases h
    | ok b0 =>
      rw [hf] at h
      cases hrest : mapE f rest with
      | error e => rw [hrest] at h; cases h
      | ok bs0 =>
        rw [hrest] at h
        injection h with h
        subst h
        cases k with
        | zero =>
          injection ha with ha
          subst ha
          exact ⟨b0, hf, rfl⟩
        | succ k => exact ih bs0 hrest k ha

theorem mem_of_mem_pyEnum {α : Type} {q : Nat × α} {n : Nat} {l : List α}
    (h : q ∈ pyEnum n l) : q.2 ∈ l := by
  induction l generalizing n with
  | nil => cases h
  | cons a rest ih =>
    rcases List.mem_cons.mp h with heq | hmem
    · rw [heq]; exact List.mem_cons_self _ _
    · exact List.mem_cons_of_mem _ (ih hmem)

theorem get_loc_of_mem {w : String} {ks : List String} (h : w ∈ ks) :
    ∃ i, get_loc w ks = some i := by
  induction ks with
  | nil => cases h
  | cons k rest ih =>
    by_cases hk : w = k
    · exact ⟨0, by simp [get_loc, hk]⟩
    · rcases List.mem_cons.mp h with h1 | h2
      · exact absurd h1 hk
      · obtain ⟨i, hi⟩ := ih h2
        exact ⟨i + 1, by simp [get_loc, hk, hi]⟩

theorem vecOf_isOk {words : List (String × List Rat)}
    (hunk : "unk" ∈ words.map Prod.fst) (w : String) :
    ∃ n, vecOf words w = .ok n := by
  unfold vecOf
  cases hw : get_loc w (words.map Prod.fst) with
  | some i => exact ⟨i + 1, rfl⟩
  | none =>
    obtain ⟨j, hj⟩ := get_loc_of_mem hunk
    rw [hj]
    exact ⟨j + 1, rfl⟩

theorem vecOf_pos {words : List (String × List Rat)} {w : String} {n : Nat}
    (h : vecOf words w = .ok n) : 1 ≤ n := by
  unfold vecOf at h
  cases hw : get_loc w (words.map Prod.fst) with
  | some i => rw [hw] at h; injection h with h; omega
  | none =>
    rw [hw] at h
    cases hu : get_loc "unk" (words.map Prod.fst) with
    | some j => rw [hu] at h; injection h with h; omega
    | none => rw [hu] at h; cases h

theorem get_loc_dlookup {α : Type} (words : List (String × α)) (w : String)
    (v : α) (h : dlookup w words = some v) :
    ∃ i, get_loc w (words.map Prod.fst) = some i ∧
      (words.map Prod.snd).get? i = some v := by
  induction words with
  | nil => cases h
  | cons q rest ih =>
    obtain ⟨k1, v1⟩ := q
    simp only [dlookup] at h
    by_cases hk : w = k1
    · rw [if_pos hk] at h
      injection h with h
      subst h
      exact ⟨0, by simp [get_loc, hk], rfl⟩
    · rw [if_neg hk] at h
      obtain ⟨i, h1, h2⟩ := ih h
      refine ⟨i + 1, by simp [get_loc, hk, h1], ?_⟩
      simpa using h2

theorem get_loc_eq_none {w : String} {ks : List String} (h : w ∉ ks) :
    get_loc w ks = none := by
  induction ks with
  | nil => rfl
  | cons k rest ih =>
    simp only [List.mem_cons] at h
    push_neg at h
    simp [get_loc, h.1, ih h.2]

/-! ### The dtype cast -/

theorem dtypeSpec_bits {dtype : String} {bits : Nat} {signed : Bool}
    (h : dtypeSpec dtype = some (bits, signed)) : 8 ≤ bits := by
  unfold dtypeSpec at h
  split_ifs at h <;> simp_all <;> omega

theorem castDtype_eq_id {dtype : String} {v : Nat}
    (h : dtypeSpec dtype = none) : castDtype dtype v = v := by
  unfold castDtype
  rw [h]

theorem castDtype_eq_castWidth {dtype : String} {v bits : Nat}
    {signed : Bool} (h : dtypeSpec dtype = some (bits, signed)) :
    castDtype dtype v = castWidth bits signed v := by
  unfold castDtype
  rw [h]

theorem inDtypeRange_of_none {dtype : String} {v : Nat}
    (h : dtypeSpec dtype = none) : inDtypeRange dtype v := by
  unfold inDtypeRange
  rw [h]
  trivial

theorem inDtypeRange_eq_inWidthRange {dtype : String} {v bits : Nat}
    {signed : Bool} (h : dtypeSpec dtype = some (bits, signed)) :
    inDtypeRange dtype v = inWidthRange bits signed v := by
  unfold inDtypeRange
  rw [h]

theorem castWidth_of_lt {bits : Nat} {signed : Bool} {v : Nat}
    (hv : v < 2 ^ bits) (hs : signed = true → v < 2 ^ (bits - 1)) :
    castWidth bits signed v = v := by
  unfold castWidth
  rw [Nat.mod_eq_of_lt hv, if_neg]
  rintro ⟨h1, h2⟩
  have := hs h1
  omega

theorem castDtype_zero (dtype : String) : castDtype dtype 0 = 0 := by
  cases h : dtypeSpec dtype with
  | none => rw [castDtype_eq_id h]; rfl
  | some p =>
    obtain ⟨bits, signed⟩ := p
    rw [castDtype_eq_castWidth h,
      castWidth_of_lt (pow_pos (by norm_num) bits)
        (fun _ => pow_pos (by norm_num) (bits - 1))]
    rfl

theorem castDtype_one (dtype : String) : castDtype dtype 1 = 1 := by
  cases h : dtypeSpec dtype with
  | none => rw [castDtype_eq_id h]; rfl
  | some p =>
    obtain ⟨bits, signed⟩ := p
    have h8 := dtypeSpec_bits h
    have h1 : (1 : Nat) < 2 ^ (bits - 1) := by
      calc (1 : Nat) < 2 ^ 1 := by norm_num
      _ ≤ 2 ^ (bits - 1) := Nat.pow_le_pow_right (by norm_num) (by omega)
    have h2 : (1 : Nat) < 2 ^ bits :=
      lt_of_lt_of_le h1 (Nat.pow_le_pow_right (by norm_num) (by omega))
    rw [castDtype_eq_castWidth h, castWidth_of_lt h2 (fun _ => h1)]
    rfl

theorem castDtype_eq_of_inRange {dtype : String} {v : Nat}
    (h : inDtypeRange dtype v) : castDtype dtype v = v := by
  cases hd : dtypeSpec dtype with
  | none => rw [castDtype_eq_id hd]
  | some p =>
    obtain ⟨bits, signed⟩ := p
    rw [inDtypeRange_eq_inWidthRange hd] at h
    unfold inWidthRange at h
    rw [castDtype_eq_castWidth hd]
    cases signed with
    | true =>
      rw [if_pos rfl] at h
      have h2 : v < 2 ^ bits :=
        lt_of_lt_of_le h (Nat.pow_le_pow_right (by norm_num) (by omega))
      exact castWidth_of_lt h2 (fun _ => h)
    | false =>
      rw [if_neg (by simp)] at h
      exact castWidth_of_lt h (fun hc => Bool.noConfusion hc)

/-! ### Row-level facts about `map_vocab` -/

theorem map_vocab_ok_rows (vec : String → Except PipelineError Nat)
    (pos : Nat) (input : List (String × List String)) (maxlen : Nat)
    (dtype : String) (sr : ShardResult) (row : Nat) (r : String)
    (tokens : List String)
    (hok : map_vocab pos input vec maxlen dtype = .ok sr)
    (hrec : input.get? row = some (r, tokens)) :
    ∃ rowVals, rowIds vec tokens maxlen = .ok rowVals ∧
      sr.input_ids.get? row = some (rowVals.map (castDtype dtype)) ∧
      sr.attention_masks.get? row =
        some ((rowMask tokens maxlen).map (castDtype dtype)) := by
  unfold map_vocab at hok
  split at hok
  · cases hok
  · cases hm : mapE (fun p => rowIds vec p.2 maxlen) input with
    | error e => rw [hm] at hok; cases hok
    | ok ids =>
      rw [hm] at hok
      injection hok with hok
      subst hok
      obtain ⟨rowVals, h1, h2⟩ :=
        mapE_ok_get? _ input ids hm row (r, tokens) hrec
      refine ⟨rowVals, h1, ?_, ?_⟩
      · rw [List.get?_map, h2]
        rfl
      · rw [List.get?_map, hrec]
        rfl

theorem rowIds_ok_get? (vec : String → Except PipelineError Nat)
    (tokens : List String) (maxlen : Nat) (rowVals : List Nat) (i : Nat)
    (h : rowIds vec tokens maxlen = .ok rowVals) (hi : i < maxlen) :
    (i < tokens.length →
      ∃ n, vec (lower (tokens.getD i "")) = .ok n ∧ rowVals.get? i = some n) ∧
    (tokens.length ≤ i → rowVals.get? i = some 0) := by
  unfold rowIds at h
  obtain ⟨b, hb, hget⟩ :=
    mapE_ok_get? _ (List.range maxlen) rowVals h i i (List.get?_range hi)
  constructor
  · intro hlt
    rw [if_pos hlt] at hb
    exact ⟨b, hb, hget⟩
  · intro hge
    rw [if_neg (Nat.not_lt.mpr hge)] at hb
    injection hb with hb
    rw [hget, ← hb]

theorem rowMask_stored_getD (dtype : String) (tokens : List String)
    (maxlen : Nat) (i : Nat) (hi : i < maxlen) :
    ((rowMask tokens maxlen).map (castDtype dtype)).getD i 0 =
      if i < tokens.length then 1 else 0 := by
  rw [List.getD_eq_get?, List.get?_map, rowMask, List.get?_map,
    List.get?_range hi]
  by_cases h : i < tokens.length
  · simp [h, castDtype_one]
  · simp [h, castDtype_zero]

/-! ### Claim theorems -/

/-- Shard 0 of the two-shard scenario: records A and B, rows 0 and 1. -/
def shardAB : ShardResult :=
  { input_ids := [[1, 0], [2, 0]]
    attention_masks := [[1, 0], [1, 0]]
    query_mapping := [("A", (0, 0)), ("B", (0, 1))] }

/-- Shard 1 of the two-shard scenario: record C at row 0. -/
def shardC : ShardResult :=
  { input_ids := [[3, 0]]
    attention_masks := [[1, 0]]
    query_mapping := [("C", (1, 0))] }

/-- C1: if record `r` lies in exactly one shard's local map, with shard `s`
assigning it row `i`, then `get r` on the merged `TransformedDict` returns
exactly row `i` of shard `s`'s two arrays.  The conclusion mentions only
shard `s`'s rows, so the result is independent of every other shard's row
counts and contents. -/
theorem globalIndex_get_resolves_unique_shard
    (shards : List (Nat × ShardResult)) (r : String) (s : Nat)
    (sr : ShardResult) (i : Nat) (rowI rowM : List Int)
    (hpos : (shards.map Prod.fst).Nodup)
    (hmem : (s, sr) ∈ shards)
    (hnd : (sr.query_mapping.map Prod.fst).Nodup)
    (hr : dlookup r sr.query_mapping = some (s, i))
    (hothers : ∀ p ∈ shards, p.1 ≠ s → dlookup r p.2.query_mapping = none)
    (hrowI : sr.input_ids.get? i = some rowI)
    (hrowM : sr.attention_masks.get? i = some rowM) :
    (buildGlobalIndex shards).get r =
      .ok { input_ids := rowI, attention_masks := rowM } := by
  have hc : dlookup r (mergeQuery shards) = some (s, i) :=
    mergeQuery_foldl_unique shards [] r s sr (s, i) hpos hmem hnd hr hothers
  have hs : dlookup s (shards.map fun p =>
      (p.1, ShardArrays.mk p.2.input_ids p.2.attention_masks)) =
        some (ShardArrays.mk sr.input_ids sr.attention_masks) :=
    dlookup_map_entry (fun b => ShardArrays.mk b.input_ids b.attention_masks)
      shards s sr hpos hmem
  simp only [buildGlobalIndex, mkTransformedDict, TransformedDict.get, hc,
    hs, hrowI, hrowM]

/-- Witness for C1: the spec scenario — shard 0 holds {A, B}, shard 1
holds {C}; `get "C"` reads shard 1's row 0. -/
theorem globalIndex_get_resolves_unique_shard_witness :
    (buildGlobalIndex [(0, shardAB), (1, shardC)]).get "C" =
      .ok { input_ids := [3, 0], attention_masks := [1, 0] } :=
  globalIndex_get_resolves_unique_shard [(0, shardAB), (1, shardC)] "C" 1
    shardC 0 [3, 0] [1, 0] (by decide) (by decide) (by decide) (by decide)
    (by decide) (by decide) (by decide)

/-- C9: a record id never produced by any shard is rejected by `get` with
the unknown-record error kind, not answered with a value. -/
theorem globalIndex_get_unknown_record (shards : List (Nat × ShardResult))
    (r : String)
    (h : ∀ p ∈ shards, dlookup r p.2.query_mapping = none) :
    (buildGlobalIndex shards).get r = .error .UnknownRecord := by
  have hc : dlookup r (mergeQuery shards) = none := by
    rw [mergeQuery]
    exact mergeQuery_foldl_absent shards [] r h
  simp only [buildGlobalIndex, mkTransformedDict, TransformedDict.get, hc]

/-- Witness for C9: the spec scenario — "Z" was never tokenized. -/
theorem globalIndex_get_unknown_record_witness :
    (buildGlobalIndex [(0, shardAB), (1, shardC)]).get "Z" =
      .error .UnknownRecord :=
  globalIndex_get_unknown_record [(0, shardAB), (1, shardC)] "Z" (by decide)

/-- First of two shards that both claim record "A". -/
def dupShard0 : ShardResult :=
  { input_ids := [[7, 7]]
    attention_masks := [[1, 1]]
    query_mapping := [("A", (0, 0))] }

/-- Second of two shards that both claim record "A". -/
def dupShard1 : ShardResult :=
  { input_ids := [[9, 9]]
    attention_masks := [[1, 0]]
    query_mapping := [("A", (1, 0))] }

/-- C3 counterexample: two shards both claim record "A"; constructing the
merged index raises nothing — `get "A"` succeeds and returns shard 1's
row, so shard 0's entry was silently overwritten.  No duplicate-key check
exists anywhere in the merge. -/
theorem merge_duplicate_silently_overwrites :
    (buildGlobalIndex [(0, dupShard0), (1, dupShard1)]).get "A" =
      .ok { input_ids := [9, 9], attention_masks := [1, 0] } := rfl

/-- C3 amended: when several shards claim the same record id the merge
does not fail; the entry of the shard merged last silently wins.  For any
earlier shards `pre` and a final shard `(s, sr)` whose local map binds
`r`, the merged map binds `r` to `sr`'s entry, whatever `pre` contains. -/
theorem mergeQuery_last_shard_wins (pre : List (Nat × ShardResult)) (s : Nat)
    (sr : ShardResult) (r : String) (v : Nat × Nat)
    (hnd : (sr.query_mapping.map Prod.fst).Nodup)
    (hr : dlookup r sr.query_mapping = some v) :
    dlookup r (mergeQuery (pre ++ [(s, sr)])) = some v := by
  rw [mergeQuery, List.foldl_append]
  simp only [List.foldl_cons, List.foldl_nil]
  exact dlookup_dmerge_of_some _ hnd hr

/-- Witness for the amended C3: merging `dupShard0` then `dupShard1`, both
claiming "A", binds "A" to shard 1's entry. -/
theorem mergeQuery_last_shard_wins_witness :
    dlookup "A" (mergeQuery [(0, dupShard0), (1, dupShard1)]) = some (1, 0) :=
  mergeQuery_last_shard_wins [(0, dupShard0)] 1 dupShard1 "A" (1, 0)
    (by decide) (by decide)

/-- A 300-token pretrained table: resolver ids run 1..300, far beyond the
int8 range. -/
def words300 : List (String × List Rat) :=
  (List.range 300).map fun i => ("w" ++ toString i, [(0 : Rat)])

set_option maxRecDepth 100000 in
/-- C2 counterexample: with dtype "int8" (which no check rejects, per C4)
the resolver id 300 of token "w299" is stored as 44 = 300 mod 256: the
stored value at a real-token position does not equal the resolver's id. -/
theorem row_policy_dtype_cast_counterexample :
    vecOf words300 "w299" = .ok 300 ∧
    map_vocab 0 [("A", ["w299"])] (vecOf words300) 1 "int8" =
      .ok { input_ids := [[44]]
            attention_masks := [[1]]
            query_mapping := [("A", (0, 0))] } ∧
    (44 : Int) ≠ 300 :=
  ⟨rfl, rfl, by decide⟩

/-- C2 amended: the stored row policy through the fixed-width store.  For
a record at row `row` and any position `i < maxlen`: at a real-token
position (`i < len(tokens)`) the stored value is the dtype cast of the
resolver's id for the (normalized) token — equal to the id itself
whenever the id is within the dtype's representable range, as in the
the/cat/sat scenario — and the mask is 1; past the tokens (padding, and
the only reachable positions after right-side truncation to `maxlen`)
both stored values are 0. -/
theorem map_vocab_row_policy (vec : String → Except PipelineError Nat)
    (pos : Nat) (input : List (String × List String)) (maxlen : Nat)
    (dtype : String) (sr : ShardResult) (row : Nat) (r : String)
    (tokens : List String) (i : Nat)
    (hok : map_vocab pos input vec maxlen dtype = .ok sr)
    (hrec : input.get? row = some (r, tokens))
    (hi : i < maxlen) :
    ∃ rowI rowM,
      sr.input_ids.get? row = some rowI ∧
      sr.attention_masks.get? row = some rowM ∧
      (i < tokens.length →
        ∃ n, vec (lower (tokens.getD i "")) = .ok n ∧
          rowI.getD i 0 = castDtype dtype n ∧
          (inDtypeRange dtype n → rowI.getD i 0 = n)) ∧
      (tokens.length ≤ i → rowI.getD i 0 = 0) ∧
      rowM.getD i 0 = (if i < tokens.length then 1 else 0) := by
  obtain ⟨rowVals, h1, h2, h3⟩ :=
    map_vocab_ok_rows vec pos input maxlen dtype sr row r tokens hok hrec
  obtain ⟨h4, h5⟩ := rowIds_ok_get? vec tokens maxlen rowVals i h1 hi
  refine ⟨rowVals.map (castDtype dtype),
    (rowMask tokens maxlen).map (castDtype dtype), h2, h3, ?_, ?_,
    rowMask_stored_getD dtype tokens maxlen i hi⟩
  · intro hlt
    obtain ⟨n, hn, hget⟩ := h4 hlt
    refine ⟨n, hn, ?_, ?_⟩
    · rw [List.getD_eq_get?, List.get?_map, hget]
      rfl
    · intro hr
      rw [List.getD_eq_get?, List.get?_map, hget]
      show castDtype dtype n = (n : Int)
      exact castDtype_eq_of_inRange hr
  · intro hge
    rw [List.getD_eq_get?, List.get?_map, h5 hge]
    show castDtype dtype 0 = 0
    exact castDtype_zero dtype

/-- The scenario resolver: the/cat/sat ↦ 1/2/3, everything else 0. -/
def scenarioVocab (w : String) : Nat :=
  if w = "the" then 1 else if w = "cat" then 2 else if w = "sat" then 3 else 0

/-- The shard `map_vocab` produces for the scenario record
tokens=["the","cat","sat"] with maxlen 5 under `scenarioVocab`. -/
def scenarioShard : ShardResult :=
  { input_ids := [[1, 2, 3, 0, 0]]
    attention_masks := [[1, 1, 1, 0, 0]]
    query_mapping := [("r1", (0, 0))] }

/-- The scenario token list. -/
def scenarioTokens : List String := ["the", "cat", "sat"]

/-- Witness for C2: tokens=["the","cat","sat"], maxlen=5, dtype int32 —
position 1 is a real token (stored id castDtype "int32" 2 = 2, mask 1)
and position 4 is padding (0, 0), matching the stored row
input_ids=[1,2,3,0,0], attention_masks=[1,1,1,0,0]. -/
theorem map_vocab_row_policy_witness :
    (∃ rowI rowM,
      scenarioShard.input_ids.get? 0 = some rowI ∧
      scenarioShard.attention_masks.get? 0 = some rowM ∧
      (1 < scenarioTokens.length →
        ∃ n, (fun w => (.ok (scenarioVocab w) : Except PipelineError Nat))
            (lower (scenarioTokens.getD 1 "")) = .ok n ∧
          rowI.getD 1 0 = castDtype "int32" n ∧
          (inDtypeRange "int32" n → rowI.getD 1 0 = n)) ∧
      (scenarioTokens.length ≤ 1 → rowI.getD 1 0 = 0) ∧
      rowM.getD 1 0 = (if 1 < scenarioTokens.length then 1 else 0)) ∧
    (∃ rowI rowM,
      scenarioShard.input_ids.get? 0 = some rowI ∧
      scenarioShard.attention_masks.get? 0 = some rowM ∧
      (4 < scenarioTokens.length →
        ∃ n, (fun w => (.ok (scenarioVocab w) : Except PipelineError Nat))
            (lower (scenarioTokens.getD 4 "")) = .ok n ∧
          rowI.getD 4 0 = castDtype "int32" n ∧
          (inDtypeRange "int32" n → rowI.getD 4 0 = n)) ∧
      (scenarioTokens.length ≤ 4 → rowI.getD 4 0 = 0) ∧
      rowM.getD 4 0 = (if 4 < scenarioTokens.length then 1 else 0)) :=
  ⟨map_vocab_row_policy (fun w => .ok (scenarioVocab w)) 0
      [("r1", scenarioTokens)] 5 "int32" scenarioShard 0 "r1"
      scenarioTokens 1 rfl (by decide) (by decide),
   map_vocab_row_policy (fun w => .ok (scenarioVocab w)) 0
      [("r1", scenarioTokens)] 5 "int32" scenarioShard 0 "r1"
      scenarioTokens 4 rfl (by decide) (by decide)⟩

set_option maxRecDepth 100000 in
/-- C10 counterexample: with dtype "int8" the resolver id 256 of token
"w255" wraps to exactly 0 at a real-token position (the mask there is 1),
so in the program 0 is not produced exclusively by padding. -/
theorem stored_zero_at_real_position_counterexample :
    vecOf words300 "w255" = .ok 256 ∧
    map_vocab 0 [("A", ["w255"])] (vecOf words300) 1 "int8" =
      .ok { input_ids := [[0]]
            attention_masks := [[1]]
            query_mapping := [("A", (0, 0))] } :=
  ⟨rfl, rfl⟩

/-- C10 amended: the resolver built from a pretrained table returns only
ids ≥ 1 (table position plus one, the sentinel's position plus one for
unknown tokens); the value stored at a real-token position is the dtype
cast of that id, hence nonzero whenever the id is within the dtype's
representable range — 0 can reach a real-token position only through
dtype overflow, and in-range configurations produce 0 exclusively by
padding. -/
theorem resolver_ids_positive (words : List (String × List Rat))
    (w : String) (n : Nat) (pos : Nat)
    (input : List (String × List String)) (maxlen : Nat) (dtype : String)
    (sr : ShardResult) (row : Nat) (r : String) (tokens : List String)
    (i : Nat) :
    (vecOf words w = .ok n → 1 ≤ n) ∧
    (map_vocab pos input (vecOf words) maxlen dtype = .ok sr →
      input.get? row = some (r, tokens) → i < maxlen → i < tokens.length →
      ∃ rowI, sr.input_ids.get? row = some rowI ∧
        ∃ m, vecOf words (lower (tokens.getD i "")) = .ok m ∧ 1 ≤ m ∧
          rowI.getD i 0 = castDtype dtype m ∧
          (inDtypeRange dtype m → rowI.getD i 0 ≠ 0)) := by
  refine ⟨fun h => vecOf_pos h, fun hok hrec hi hreal => ?_⟩
  obtain ⟨rowVals, h1, h2, _⟩ :=
    map_vocab_ok_rows (vecOf words) pos input maxlen dtype sr row r tokens
      hok hrec
  obtain ⟨h4, _⟩ := rowIds_ok_get? (vecOf words) tokens maxlen rowVals i h1 hi
  obtain ⟨m, hm, hget⟩ := h4 hreal
  have hm1 : 1 ≤ m := vecOf_pos hm
  refine ⟨rowVals.map (castDtype dtype), h2, m, hm, hm1, ?_, ?_⟩
  · rw [List.getD_eq_get?, List.get?_map, hget]
    rfl
  · intro hr
    rw [List.getD_eq_get?, List.get?_map, hget]
    show castDtype dtype m ≠ 0
    rw [castDtype_eq_of_inRange hr]
    omega

/-- The pretrained table for the small concrete runs: "unk" at position 0
(id 1), "cat" at position 1 (id 2). -/
def unkCatTable : List (String × List Rat) := [("unk", [0]), ("cat", [5])]

/-- The shard `map_vocab` produces for the single record ["cat"],
maxlen 1, under `vecOf unkCatTable`. -/
def catShard : ShardResult :=
  { input_ids := [[2]]
    attention_masks := [[1]]
    query_mapping := [("A", (0, 0))] }

/-- Witness for C10: the resolver id of "cat" is 2 ≥ 1, and position 0 of
the stored row for the record ["cat"] carries castDtype "int32" 2,
nonzero since 2 is in the int32 range. -/
theorem resolver_ids_positive_witness :
    (1 ≤ 2) ∧
    (∃ rowI, catShard.input_ids.get? 0 = some rowI ∧
      ∃ m, vecOf unkCatTable
          (lower ((["cat"] : List String).getD 0 "")) = .ok m ∧ 1 ≤ m ∧
        rowI.getD 0 0 = castDtype "int32" m ∧
        (inDtypeRange "int32" m → rowI.getD 0 0 ≠ 0)) :=
  ⟨(resolver_ids_positive unkCatTable "cat" 2 0 [("A", ["cat"])] 1 "int32"
      catShard 0 "A" ["cat"] 0).1 rfl,
   (resolver_ids_positive unkCatTable "cat" 2 0 [("A", ["cat"])] 1 "int32"
      catShard 0 "A" ["cat"] 0).2 rfl (by decide) (by decide) (by decide)⟩

/-- C5: the shard encoder evaluated at the failing input — an empty
partition.  NumPy cannot create a zero-row memmap (an empty file cannot be
memory-mapped), so `map_vocab` raises `ValueError` for every resolver,
maxlen and dtype instead of returning zero-row arrays and an empty map as
the spec requires. -/
theorem map_vocab_empty_shard_fails (vec : String → Except PipelineError Nat)
    (maxlen : Nat) (dtype : String) :
    map_vocab 0 [] vec maxlen dtype = .error .valueError := by
  simp [map_vocab]

/-- C7 counterexample: with no pretrained source a concrete run does fail,
but only after the tokenization stage was dispatched: the stage trace is
`[tokenizeDispatch]` followed by the `NotImplementedError` — not a failure
raised before tokenization. -/
theorem run_no_pretrained_counterexample :
    run [[("A", "hello")]] (fun _ => ["hello"]) none 128 "int32" =
      ([Stage.tokenizeDispatch], .error .notImplemented) := rfl

/-- C7 amended: for every invocation without a pretrained vocabulary
source, `run` fails with `NotImplementedError` raised after the
tokenization dispatch and before vocabulary mapping or any later stage is
dispatched. -/
theorem run_no_pretrained (parts : List (List (String × String)))
    (tok : String → List String) (maxlen : Nat) (dtype : String) :
    run parts tok none maxlen dtype =
      ([Stage.tokenizeDispatch], .error .notImplemented) := rfl

/-- A pretrained table without the "unk" sentinel. -/
def noUnkTable : List (String × List Rat) := [("the", [1])]

/-- C6 counterexample: building the resolver from a table lacking the
"unk" sentinel does not fail at construction: the whole pipeline runs to
completion on an input whose tokens are all in the table, so no
configuration-time error was raised. -/
theorem resolver_missing_sentinel_counterexample :
    (run [[("A", "t")]] (fun _ => ["the"]) (some noUnkTable) 3
      "int32").2.isOk = true := rfl

/-- C6 amended: no sentinel check happens at construction.  When "unk" is
present the resolver is total and unknown tokens resolve to the sentinel's
id; when it is absent, the failure is a lazy `KeyError` raised only when a
token outside the table is actually resolved. -/
theorem vecOf_sentinel (words : List (String × List Rat)) (w : String) :
    ("unk" ∈ words.map Prod.fst → ∃ n, vecOf words w = .ok n) ∧
    ("unk" ∈ words.map Prod.fst → w ∉ words.map Prod.fst →
      vecOf words w = vecOf words "unk") ∧
    ("unk" ∉ words.map Prod.fst → w ∉ words.map Prod.fst →
      vecOf words w = .error (.keyError "unk")) := by
  refine ⟨fun hunk => vecOf_isOk hunk w, fun hunk hw => ?_, fun hunk hw => ?_⟩
  · unfold vecOf
    rw [get_loc_eq_none hw]
    obtain ⟨j, hj⟩ := get_loc_of_mem hunk
    rw [hj]
  · unfold vecOf
    rw [get_loc_eq_none hw, get_loc_eq_none hunk]

/-- Witness for the amended C6: against the table [("a",·),("unk",·)] the
unknown token "zzz" resolves without failing, to the sentinel's id. -/
theorem vecOf_sentinel_witness :
    (∃ n, vecOf [("a", [(3 : Rat)]), ("unk", [2])] "zzz" = .ok n) ∧
    vecOf [("a", [(3 : Rat)]), ("unk", [2])] "zzz" =
      vecOf [("a", [(3 : Rat)]), ("unk", [2])] "unk" :=
  ⟨(vecOf_sentinel [("a", [(3 : Rat)]), ("unk", [2])] "zzz").1 (by decide),
   (vecOf_sentinel [("a", [(3 : Rat)]), ("unk", [2])] "zzz").2.1 (by decide)
     (by decide)⟩

/-- A 128-token pretrained table: resolver ids run 1..128, exceeding the
int8 maximum of 127. -/
def words128 : List (String × List Rat) :=
  (List.range 128).map fun i => ("w" ++ toString i, [(0 : Rat)])

set_option maxRecDepth 10000 in
/-- C4 counterexample: a vocabulary of 128 entries (resolver ids up to
128) with dtype "int8" (maximum 127): the pipeline raises no error at all
— the run completes and the shard is written, instead of failing with a
`ConfigurationError` before any shard file is created. -/
theorem dtype_narrow_counterexample :
    ((run [[("A", "text")]] (fun _ => ["w5"]) (some words128) 4
        "int8").2.isOk = true) ∧
    127 < words128.length :=
  ⟨by decide, by decide⟩

/-- C4 amended: the pipeline performs no dtype-width validation at all.
For every dtype string, however narrow relative to the vocabulary, a run
over nonempty partitions with positive maxlen and a table containing the
"unk" sentinel completes and writes its shards; the dtype is passed
straight to the array files (values are cast by the store) and no
configuration error is ever raised for it. -/
theorem run_no_dtype_check (parts : List (List (String × String)))
    (tok : String → List String) (words : List (String × List Rat))
    (maxlen : Nat) (dtype : String)
    (hw : words ≠ [])
    (hunk : "unk" ∈ words.map Prod.fst)
    (hne : ∀ part ∈ parts, part ≠ [])
    (hml : 0 < maxlen) :
    (run parts tok (some words) maxlen dtype).2.isOk = true := by
  have hvec : ∀ w, ∃ n, vecOf words w = .ok n := vecOf_isOk hunk
  have hrow : ∀ q : List String, ∃ l, rowIds (vecOf words) q maxlen = .ok l := by
    intro q
    apply mapE_ok_of_forall
    intro i _
    by_cases hi : i < q.length
    · obtain ⟨n, hn⟩ := hvec (lower (q.getD i ""))
      exact ⟨n, by rw [if_pos hi]; exact hn⟩
    · exact ⟨0, by rw [if_neg hi]⟩
  have hmv : ∀ (pos : Nat) (input : List (String × List String)),
      input ≠ [] →
      ∃ sr, map_vocab pos input (vecOf words) maxlen dtype = .ok sr := by
    intro pos input hinput
    have hlen : ¬input.length * maxlen = 0 := by
      have h0 : input.length ≠ 0 := fun h => hinput (List.length_eq_zero.mp h)
      exact Nat.mul_ne_zero h0 (Nat.pos_iff_ne_zero.mp hml)
    obtain ⟨ids, hids⟩ :=
      mapE_ok_of_forall (fun p => rowIds (vecOf words) p.2 maxlen) input
        fun p _ => hrow p.2
    exact ⟨_, by rw [map_vocab, if_neg hlen, hids]⟩
  obtain ⟨shards, hshards⟩ : ∃ shards,
      mapVocabAll (parts.map fun part => part.map fun p => (p.1, tok p.2))
        (vecOf words) maxlen dtype = .ok shards := by
    rw [mapVocabAll]
    apply mapE_ok_of_forall
    intro q hq
    have hq2 := mem_of_mem_pyEnum hq
    obtain ⟨part, hpart, hq3⟩ := List.mem_map.mp hq2
    have hq4 : q.2 ≠ [] := by
      rw [← hq3]
      intro hcon
      exact hne part hpart (List.map_eq_nil.mp hcon)
    obtain ⟨sr, hsr⟩ := hmv q.1 q.2 hq4
    exact ⟨(q.1, sr), by rw [hsr]; rfl⟩
  obtain ⟨emb, hemb⟩ : ∃ emb,
      assembleEmbedding (words.map Prod.snd) = some emb := by
    cases words with
    | nil => exact absurd rfl hw
    | cons q rest => exact ⟨_, rfl⟩
  simp [run, hshards, hemb, Except.isOk, Except.toBool]

/-- Witness for the amended C4: a one-record run with dtype "int8"
completes. -/
theorem run_no_dtype_check_witness :
    (run [[("A", "x")]] (fun _ => ["a"]) (some [("unk", [(0 : Rat)])]) 1
      "int8").2.isOk = true :=
  run_no_dtype_check [[("A", "x")]] (fun _ => ["a"]) [("unk", [(0 : Rat)])]
    1 "int8" (by decide) (by decide) (by decide) (by decide)

/-- C8: whenever a pretrained source is supplied and `run` completes, the
assembled embedding matrix has the all-zero vector at row 0, and for every
token of the pretrained table the matrix row indexed by the resolver's id
for that token (id − 1 indexing the original pretrained rows) is that
token's original pretrained vector. -/
theorem embedding_row_alignment (parts : List (List (String × String)))
    (tok : String → List String) (words : List (String × List Rat))
    (maxlen : Nat) (dtype : String) (res : RunResult) (w : String)
    (v : List Rat)
    (hok : (run parts tok (some words) maxlen dtype).2 = .ok res)
    (hw : dlookup w words = some v) :
    (∃ z, res.embedding.get? 0 = some z ∧ ∀ q ∈ z, q = 0) ∧
    (∃ n, vecOf words w = .ok n ∧ res.embedding.get? n = some v) := by
  cases words with
  | nil => simp [dlookup] at hw
  | cons p0 rest =>
    simp only [run] at hok
    cases hmv : mapVocabAll
        (parts.map fun part => part.map fun p => (p.1, tok p.2))
        (vecOf (p0 :: rest)) maxlen dtype with
    | error e => rw [hmv] at hok; simp at hok
    | ok shards =>
      rw [hmv] at hok
      have hass : assembleEmbedding ((p0 :: rest).map Prod.snd) =
          some (List.replicate p0.2.length (0 : Rat) :: p0.2 ::
            rest.map Prod.snd) := rfl
      rw [hass] at hok
      simp only [] at hok
      injection hok with hok
      have hres : res.embedding =
          List.replicate p0.2.length (0 : Rat) :: p0.2 ::
            rest.map Prod.snd := by rw [← hok]
      constructor
      · refine ⟨List.replicate p0.2.length (0 : Rat), by rw [hres]; rfl, ?_⟩
        intro q hq
        exact List.eq_of_mem_replicate hq
      · obtain ⟨i, h1, h2⟩ := get_loc_dlookup (p0 :: rest) w v hw
        refine ⟨i + 1, ?_, ?_⟩
        · unfold vecOf
          rw [h1]
        · rw [hres]
          simpa using h2

/-- The result of the one-record run over `unkCatTable` used as the C8
witness. -/
def exRunResult : RunResult :=
  { inputs := mkTransformedDict [("A", (0, 0))]
      [(0, { input_ids := [[2]], attention_masks := [[1]] })]
    embedding := [[0], [0], [5]] }

/-- Witness for C8: the concrete run over `unkCatTable` yields embedding
[[0],[0],[5]]: row 0 is the zero vector and row 2 — the resolver's id for
"cat" — is "cat"'s original pretrained vector [5]. -/
theorem embedding_row_alignment_witness :
    (∃ z, exRunResult.embedding.get? 0 = some z ∧ ∀ q ∈ z, q = 0) ∧
    (∃ n, vecOf unkCatTable "cat" = .ok n ∧
      exRunResult.embedding.get? n = some [5]) :=
  embedding_row_alignment [[("A", "cat")]] (fun _ => ["cat"]) unkCatTable 1
    "int32" exRunResult "cat" [5] rfl (by decide)
